import Mathlib

/-!
Shallow embedding of the threaded conversation store and streaming query
pipeline of the pydantic-ai-agent service, together with proofs about the
behaviour its specification claims.

Conventions used throughout the embedding:

* UUIDs are modelled by their canonical string form (`String`), so Python's
  `str(uuid)` is the identity on them; fresh `uuid4()` draws are modelled by
  explicit supply parameters (`fresh : Nat → String` or a single `String`).
* Timestamps (`created_at` / `updated_at`) are modelled by a natural-number
  server clock carried in the database state; every insert stamps the current
  clock value and advances it, which realises the schema's "server-assigned,
  monotonically increasing" `created_at`.
* The external `ModelMessagesTypeAdapter` (pydantic_ai) is modelled as an
  abstract faithful codec on raw payloads: `dump_json` wraps a message list,
  `validate_json` recovers it, and separate payload constructors stand for the
  empty string and for non-empty text the adapter rejects.
* Python exceptions are modelled by an `Err` sum mirroring the service's
  exception classes; `raise`/`except` chains become `Except`/`match` chains.
  Database writes thread the `DB` state explicitly; an operation running
  inside `async with db.begin()` returns the caller's original state when it
  fails (rollback) and the extended state when it succeeds (commit).
-/

namespace PydanticAgent

/-- Message roles (`MessageRole` in src/service/models/api/message_models.py). -/
inductive MessageRole
  | user
  | assistant
  | system
  | tool
deriving DecidableEq, Repr

/-- Part kinds of provider-format message parts, as discriminated by
`part_kind` strings in `_raw_json_to_content` and by the part classes used in
`_determine_message_role` (pydantic_ai message parts). `other` stands for any
part kind the display renderer ignores. -/
inductive PartKind
  | systemPrompt
  | userPrompt
  | toolCall
  | toolReturn
  | retryPrompt
  | text
  | other
deriving DecidableEq, Repr

/-- One typed part of a provider-format message; `content` models the textual
payload the code extracts (`part.content`, or `part.args` for tool calls). -/
structure MsgPart where
  part_kind : PartKind
  content : String
deriving DecidableEq, Repr

/-- Provider-format message (`pydantic_ai.messages.ModelMessage`).
`request` models `ModelRequest`, `response` models `ModelResponse`; `unknown`
models a value outside the recognised union, which `_determine_message_role`
classifies as `None` (the message is then dropped). -/
inductive ModelMessage
  | request (parts : List MsgPart)
  | response (parts : List MsgPart)
  | unknown
deriving DecidableEq, Repr

/-- The parts list of a message (`message.parts`); `unknown` carries none. -/
def ModelMessage.parts : ModelMessage → List MsgPart
  | .request ps => ps
  | .response ps => ps
  | .unknown => []

/-- A stored raw payload (`raw_json_text` column). `encoded msgs` is the
output of `ModelMessagesTypeAdapter.dump_json(msgs)`; `emptyText` is the empty
string; `malformed s` is non-empty text the adapter fails to validate. -/
inductive RawPayload
  | encoded (msgs : List ModelMessage)
  | emptyText
  | malformed (s : String)
deriving DecidableEq, Repr

/-- `ModelMessagesTypeAdapter.dump_json`, modelled abstractly: serialisation
of a message list to a raw payload. -/
def dump_json (msgs : List ModelMessage) : RawPayload :=
  .encoded msgs

/-- `ModelMessagesTypeAdapter.validate_json`, modelled abstractly: parsing a
raw payload back into messages; `none` models a raised validation error. -/
def validate_json : RawPayload → Option (List ModelMessage)
  | .encoded msgs => some msgs
  | .emptyText => none
  | .malformed _ => none

/-- Python truthiness test `if not raw_json` on the stored payload text:
true exactly for the empty string. -/
def RawPayload.isEmptyText : RawPayload → Bool
  | .emptyText => true
  | _ => false

/-- Exception classes raised across the service, one constructor per Python
class (src/service/models/api/errors.py, src/service/models/database/errors.py,
plus builtin `ValueError` and a generic `Exception`). Each carries `str(e)`. -/
inductive Err
  | threadNotFound (msg : String)
  | threadPermission (msg : String)
  | emptyResponse (msg : String)
  | modelResponseFormat (msg : String)
  | agentType (msg : String)
  | recordCreation (msg : String)
  | valueError (msg : String)
  | other (msg : String)
deriving DecidableEq, Repr

/-- `str(e)` of a raised exception. -/
def Err.message : Err → String
  | .threadNotFound m => m
  | .threadPermission m => m
  | .emptyResponse m => m
  | .modelResponseFormat m => m
  | .agentType m => m
  | .recordCreation m => m
  | .valueError m => m
  | .other m => m

/-- `MessageCreate` (src/service/models/api/internal.py): message creation
record with optional pre-assigned ID and serialised payload. -/
structure MessageCreate where
  id : Option String
  thread_id : String
  role : MessageRole
  raw_json : RawPayload
deriving DecidableEq, Repr

/-- `threads` table row (`Thread` in src/service/models/database/models.py). -/
structure ThreadRow where
  id : String
  user_id : String
  agent_type : Option String
  created_at : Nat
  updated_at : Nat
deriving DecidableEq, Repr

/-- `messages` table row (`Message` in src/service/models/database/models.py). -/
structure MessageRow where
  id : String
  thread_id : String
  role : MessageRole
  raw_json_text : RawPayload
  created_at : Nat
deriving DecidableEq, Repr

/-- Database state: both tables plus the server clock used to stamp
`created_at` (monotonically increasing across inserts). -/
structure DB where
  threads : List ThreadRow
  messages : List MessageRow
  clock : Nat
deriving DecidableEq, Repr

/-- `_determine_message_role` (src/service/api/agent/operations.py:86-97):
a request whose (non-empty) parts contain a system-prompt part is `system`,
any other request is `user`, a response is `assistant`, anything else falls
through returning `None`. -/
def _determine_message_role : ModelMessage → Option MessageRole
  | .request parts =>
      if !parts.isEmpty && parts.any (fun p => p.part_kind == .systemPrompt) then
        some .system
      else
        some .user
  | .response _ => some .assistant
  | .unknown => none

/-- Recursive worker for `_prepare_agent_messages`: walks the messages with
the `found_first_assistant` flag and a counter into the `uuid4` supply
(`fresh`). A kept message always draws one fresh ID (`message_id = uuid4()`),
which is replaced by the pre-assigned assistant ID for the first
assistant-role message when one was supplied. -/
def _prepare_agent_messages_go (fresh : Nat → String) (thread_id : String)
    (assistant_message_id : Option String) :
    List ModelMessage → Bool → Nat → List MessageCreate
  | [], _, _ => []
  | message :: rest, found_first_assistant, k =>
    match _determine_message_role message with
    | none => _prepare_agent_messages_go fresh thread_id assistant_message_id
        rest found_first_assistant k
    | some role =>
      if role == .assistant && assistant_message_id.isSome && !found_first_assistant then
        ⟨assistant_message_id, thread_id, role, dump_json [message]⟩ ::
          _prepare_agent_messages_go fresh thread_id assistant_message_id rest true (k + 1)
      else
        ⟨some (fresh k), thread_id, role, dump_json [message]⟩ ::
          _prepare_agent_messages_go fresh thread_id assistant_message_id rest
            found_first_assistant (k + 1)

/-- `_prepare_agent_messages` (src/service/api/agent/operations.py:40-84):
classify each agent message into a role (dropping unclassifiable ones),
serialise it with the adapter, and assign IDs — the pre-assigned assistant ID
to the first assistant message when supplied, fresh `uuid4` draws otherwise. -/
def _prepare_agent_messages (fresh : Nat → String) (thread_id : String)
    (model_messages : List ModelMessage) (assistant_message_id : Option String) :
    List MessageCreate :=
  _prepare_agent_messages_go fresh thread_id assistant_message_id model_messages false 0

/-- Stable insertion of a message row into a list sorted by `created_at`
ascending (a row with an equal timestamp goes after existing ones). -/
def insertByCreatedAt (m : MessageRow) : List MessageRow → List MessageRow
  | [] => [m]
  | x :: xs =>
      if m.created_at < x.created_at then m :: x :: xs
      else x :: insertByCreatedAt m xs

/-- Stable sort by `created_at` ascending, modelling `ORDER BY created_at`. -/
def sortByCreatedAt : List MessageRow → List MessageRow
  | [] => []
  | x :: xs => insertByCreatedAt x (sortByCreatedAt xs)

/-- `get_thread` (src/service/db/database.py:74-96): select by ID, raising
`ThreadNotFoundError` when no row matches. -/
def get_thread (db : DB) (thread_id : String) : Except Err ThreadRow :=
  match db.threads.find? (fun t => t.id == thread_id) with
  | none => .error (.threadNotFound ("Thread with ID " ++ thread_id ++ " not found"))
  | some thread => .ok thread

/-- `verify_thread_access` (src/service/core/utils.py:41-66): fetch the
thread (propagating `ThreadNotFoundError`), then compare owner and requester
as strings — UUIDs are modelled by their canonical strings, so `str(·)` is the
identity on both sides. Purely a read: no `DB` is produced. -/
def verify_thread_access (db : DB) (thread_id : String) (user_id : String) :
    Except Err ThreadRow :=
  match get_thread db thread_id with
  | .error e => .error e
  | .ok thread =>
      if thread.user_id != user_id then
        .error (.threadPermission ("User with ID " ++ user_id ++
          " does not have permission to access thread with ID " ++ thread_id))
      else
        .ok thread

/-- `get_messages_by_thread` (src/service/db/database.py:172-191): all rows
of one thread, ordered by `created_at` ascending. -/
def get_messages_by_thread (db : DB) (thread_id : String) : List MessageRow :=
  sortByCreatedAt (db.messages.filter (fun m => m.thread_id == thread_id))

/-- `get_model_messages_by_thread` (src/service/db/database.py:194-221):
parse each stored payload, extending the accumulator with the recovered
messages and silently skipping payloads the adapter rejects. -/
def get_model_messages_by_thread (db : DB) (thread_id : String) : List ModelMessage :=
  (get_messages_by_thread db thread_id).foldl
    (fun model_messages m =>
      match validate_json m.raw_json_text with
      | some parsed => model_messages ++ parsed
      | none => model_messages)
    []

/-- `create_message` (src/service/db/database.py:120-170): single-row insert
with `RETURNING`, stamping the current clock as `created_at`; a missing ID is
replaced by a fresh `uuid4` draw (`fresh_id`). A primary-key collision or an
engine refusal (`engineFails`) raises, which the enclosing try re-raises as
`RecordCreationError`; the returned `DB` is then the caller's original state
(its transaction rolls back). -/
def create_message (fresh_id : String) (engineFails : Bool) (db : DB)
    (message_data : MessageCreate) : Except Err MessageRow × DB :=
  let id := message_data.id.getD fresh_id
  if engineFails || db.messages.any (fun m => m.id == id) then
    (.error (.recordCreation "Failed to create message: insert failed"), db)
  else
    let row : MessageRow :=
      ⟨id, message_data.thread_id, message_data.role, message_data.raw_json, db.clock⟩
    (.ok row, ⟨db.threads, db.messages ++ [row], db.clock + 1⟩)

/-- ID assignment loop of `create_messages_batch`
(src/service/db/database.py:251-254): keep a provided ID, otherwise draw the
next fresh `uuid4`. -/
def assignIds (fresh : Nat → String) : List MessageCreate → Nat → List String
  | [], _ => []
  | message_data :: rest, k =>
    match message_data.id with
    | some i => i :: assignIds fresh rest k
    | none => fresh k :: assignIds fresh rest (k + 1)

/-- Rows produced by the multi-row insert of `create_messages_batch`: each
value dict uses the batch's `thread_id` argument, and the server stamps
consecutive clock values as `created_at`. -/
def buildRows (thread_id : String) (clock : Nat) :
    List (String × MessageCreate) → List MessageRow
  | [] => []
  | (i, message_data) :: rest =>
      ⟨i, thread_id, message_data.role, message_data.raw_json, clock⟩ ::
        buildRows thread_id (clock + 1) rest

/-- `create_messages_batch` (src/service/db/database.py:224-289): empty input
returns `[]` without touching the store; otherwise one multi-row insert
(atomic: it fails as a whole on an engine refusal or any primary-key
collision, raising `RecordCreationError` and leaving the store unchanged),
followed by one select of the inserted IDs ordered by `created_at`, raising
`RecordCreationError` if that read comes back empty. -/
def create_messages_batch (fresh : Nat → String) (engineFails : Bool) (db : DB)
    (thread_id : String) (messages_data : List MessageCreate) :
    Except Err (List MessageRow) × DB :=
  if messages_data.isEmpty then
    (.ok [], db)
  else
    let message_ids := assignIds fresh messages_data 0
    let rows := buildRows thread_id db.clock (message_ids.zip messages_data)
    if engineFails || !message_ids.Nodup ||
        message_ids.any (fun i => db.messages.any (fun m => m.id == i)) then
      (.error (.recordCreation "Failed to create messages batch: insert failed"), db)
    else
      let db1 : DB := ⟨db.threads, db.messages ++ rows, db.clock + rows.length⟩
      let fetched := sortByCreatedAt
        (db1.messages.filter (fun m => message_ids.any (fun i => i == m.id)))
      if fetched.isEmpty then
        (.error (.recordCreation "Failed to create messages batch"), db1)
      else
        (.ok fetched, db1)

/-- Content selection of `_raw_json_to_content`'s part loop
(src/service/core/utils.py:165-175): textual content for the five rendered
part kinds, nothing for the rest. -/
def partContent (p : MsgPart) : Option String :=
  match p.part_kind with
  | .userPrompt => some p.content
  | .toolCall => some p.content
  | .toolReturn => some p.content
  | .retryPrompt => some p.content
  | .text => some p.content
  | _ => none

/-- `_raw_json_to_content` (src/service/core/utils.py:139-177): empty payload
renders as `""`; otherwise the payload is validated by the adapter — a
validation failure is a raised exception (`error`) — and the rendered text
joins the selected part contents with blank lines. -/
def _raw_json_to_content (raw_json : RawPayload) : Except String String :=
  if raw_json.isEmptyText then
    .ok ""
  else
    match validate_json raw_json with
    | none => .error "raw payload failed validation"
    | some model_messages =>
      if model_messages.isEmpty then
        .ok ""
      else
        .ok (String.intercalate "\n\n"
          ((model_messages.map ModelMessage.parts).flatten.filterMap partContent))

/-- `MessageResponse` (src/service/models/api/message_models.py). -/
structure MessageResponse where
  id : String
  thread_id : String
  role : MessageRole
  content : String
  created_at : Nat
deriving DecidableEq, Repr

/-- `db_to_api_message` (src/service/core/utils.py:95-136): checks the ID
fields are present (Python truthiness: the empty string fails the check),
renders the payload via `_raw_json_to_content`, and wraps any failure in a
raised `ValueError` (modelled by the `error` branch). -/
def db_to_api_message (message : MessageRow) : Except String MessageResponse :=
  if message.id == "" || message.thread_id == "" then
    .error "Error converting message to API model: Missing required ID fields"
  else
    match _raw_json_to_content message.raw_json_text with
    | .error e => .error ("Error converting message to API model: " ++ e)
    | .ok content =>
        .ok ⟨message.id, message.thread_id, message.role, content, message.created_at⟩

/-- The try-body of `save_agent_messages`
(src/service/api/agent/operations.py:126-153): prepare the batch, persist it
inside one transaction when non-empty (an error rolls the transaction back to
the caller's state), take the last created row — raising
`EmptyResponseError` when there is none — and convert it to API form
(`db_to_api_message` may itself raise). -/
def save_agent_messages_attempt (fresh : Nat → String) (engineFails : Bool)
    (db : DB) (thread_id : String) (model_messages : List ModelMessage)
    (assistant_message_id : Option String) : Except Err MessageResponse × DB :=
  let message_batch_data :=
    _prepare_agent_messages fresh thread_id model_messages assistant_message_id
  let txn : Except Err (List MessageRow) × DB :=
    if message_batch_data.isEmpty then (.ok [], db)
    else
      match create_messages_batch fresh engineFails db thread_id message_batch_data with
      | (.error e, _) => (.error e, db)
      | (.ok responses, db1) => (.ok responses, db1)
  match txn with
  | (.error e, db1) => (.error e, db1)
  | (.ok responses, db1) =>
    match responses.getLast? with
    | none => (.error (.emptyResponse "Failed to generate agent response"), db1)
    | some last_message =>
      match db_to_api_message last_message with
      | .error e => (.error (.valueError e), db1)
      | .ok api_message => (.ok api_message, db1)

/-- `save_agent_messages` (src/service/api/agent/operations.py:100-157): the
try-body above, with every raised exception — `EmptyResponseError` included —
caught by the blanket `except Exception` and re-raised as
`ValueError(f"Error saving agent messages: {e}")`. -/
def save_agent_messages (fresh : Nat → String) (engineFails : Bool) (db : DB)
    (thread_id : String) (model_messages : List ModelMessage)
    (assistant_message_id : Option String) : Except Err MessageResponse × DB :=
  match save_agent_messages_attempt fresh engineFails db thread_id model_messages
      assistant_message_id with
  | (.error e, db1) =>
      (.error (.valueError ("Error saving agent messages: " ++ e.message)), db1)
  | (.ok api_message, db1) => (.ok api_message, db1)

/-- `store_user_message_on_error` (src/service/api/agent/operations.py:161-197):
wrap the user's query as a single user-prompt request message, insert it with
the pre-assigned ID in its own transaction, and swallow any failure of that
attempt (returning the pre-attempt state when the insert fails). -/
def store_user_message_on_error (fresh_id : String) (engineFails : Bool)
    (db : DB) (thread_id : String) (user_message_id : String) (query : String) : DB :=
  let user_model_message : ModelMessage := .request [⟨.userPrompt, query⟩]
  let user_message_data : MessageCreate :=
    ⟨some user_message_id, thread_id, .user, dump_json [user_model_message]⟩
  match create_message fresh_id engineFails db user_message_data with
  | (.ok _, db1) => db1
  | (.error _, _) => db

/-- The values of the `AgentType` enum
(src/service/models/api/internal.py:17-24), which are exactly the keys of
`AGENT_MAP` (src/service/api/agent/operations.py:200-203). -/
def AgentTypeValues : List String := ["bank_support"]

/-- Agent-type validation and dispatch shared by `run_agent_query` and
`stream_agent_query` (src/service/api/agent/operations.py:253-267, 321-335):
a falsy `agent_type` raises `AgentTypeError`; an unrecognised string makes
the `AgentType(...)` enum constructor raise `ValueError`; a recognised value
absent from `AGENT_MAP` raises `AgentTypeError` (unreachable for the current
map, kept for faithfulness). -/
def resolve_agent (agent_type : Option String) : Except Err String :=
  match agent_type with
  | none => .error (.agentType "Thread must have a valid agent_type")
  | some s =>
    if s == "" then .error (.agentType "Thread must have a valid agent_type")
    else if !(AgentTypeValues.contains s) then
      .error (.valueError ("'" ++ s ++ "' is not a valid AgentType"))
    else if !(AgentTypeValues.contains s) then
      .error (.agentType ("Unsupported agent type: " ++ s))
    else .ok s

/-- `AgentResponse` (body of a successful non-streaming query). -/
structure AgentResponse where
  thread_id : String
  message_id : String
  response : String
deriving DecidableEq, Repr

/-- `json.dumps` applied to the agent's structured output
(src/service/api/agent/operations.py:295); the serialised text is opaque to
every claim, so serialisation is modelled as the identity. -/
def json_dumps (s : String) : String := s

/-- Environment describing the outcomes of the external effects of one
non-streaming query: whether `agent.run` raises, the message log and output
it reports on success, and whether the persistence engine refuses the batch
insert. -/
structure RunEnv where
  runErr : Option Err
  newMessages : List ModelMessage
  output : String
  persistEngineFails : Bool
deriving Repr

/-- `run_agent_query` (src/service/api/agent/operations.py:226-296): load the
history (a read), validate and resolve the agent type, run the agent, persist
its new messages via `save_agent_messages` (no pre-assigned assistant ID),
and answer with the last persisted message's IDs plus the serialised output. -/
def ops_run_agent_query (fresh : Nat → String) (env : RunEnv) (db : DB)
    (thread : ThreadRow) : Except Err AgentResponse × DB :=
  let _message_history := get_model_messages_by_thread db thread.id
  match resolve_agent thread.agent_type with
  | .error e => (.error e, db)
  | .ok _ =>
    match env.runErr with
    | some e => (.error e, db)
    | none =>
      match save_agent_messages fresh env.persistEngineFails db thread.id
          env.newMessages none with
      | (.error e, db1) => (.error e, db1)
      | (.ok result_message, db1) =>
          (.ok ⟨result_message.thread_id, result_message.id,
            json_dumps env.output⟩, db1)

/-- The `except` chain of the non-streaming handler `run_agent_query`
(src/service/api/agent/handlers.py:85-109), mapping each escaping exception
class to an HTTP status: `EmptyResponseError` and `ModelResponseFormatError`
to 422, `ValueError` to 400, anything else to 500. -/
def run_agent_query_status : Err → Nat
  | .emptyResponse _ => 422
  | .modelResponseFormat _ => 422
  | .valueError _ => 400
  | _ => 500

/-- Streaming chunk union (src/service/models/api/stream_models.py), tagged
by the `event` discriminant. -/
inductive Chunk
  | messageCreated (id : String) (role : MessageRole)
  | messageStarted (message_id : String)
  | textDelta (message_id : String) (token : String)
  | messageComplete (message_id : String)
  | errorChunk (error : String) (error_type : String)
  | done
deriving DecidableEq, Repr

/-- Environment describing the outcomes of the external effects of one
streaming query: a possible failure while loading history, a possible failure
opening `run_stream`, the structured snapshots streamed, a possible
mid-stream failure after them, the final message log on success, and the
engine outcomes of the two persistence attempts. -/
structure StreamEnv where
  historyErr : Option Err
  openErr : Option Err
  tokens : List String
  streamErr : Option Err
  newMessages : List ModelMessage
  persistEngineFails : Bool
  storeUserFails : Bool
deriving Repr

/-- Result of driving the `stream_agent_query` generator to completion: the
chunks it yielded, the final store state, and the exception propagating out
of it, if any. -/
structure StreamResult where
  chunks : List Chunk
  db : DB
  err : Option Err
deriving Repr

/-- `stream_agent_query` (src/service/api/agent/operations.py:298-388) as a
generator trace. Validation precedes the first yield, so its failures escape
with no chunk emitted. Then: announce the pre-generated user message ID, load
history, announce the assistant message ID, and enter the guarded block —
open `run_stream`, yield one text delta per snapshot, persist via
`save_agent_messages` with the pre-assigned assistant ID, and yield the
completion chunk. Any exception inside the guarded block triggers the
best-effort `store_user_message_on_error` before re-raising; failures before
the block (history load included) re-raise directly. -/
def ops_stream_agent_query (fresh : Nat → String) (env : StreamEnv) (db : DB)
    (query : String) (thread : ThreadRow)
    (user_message_id assistant_message_id : String) : StreamResult :=
  match resolve_agent thread.agent_type with
  | .error e => ⟨[], db, some e⟩
  | .ok _ =>
    let created := Chunk.messageCreated user_message_id .user
    match env.historyErr with
    | some e => ⟨[created], db, some e⟩
    | none =>
      let _message_history := get_model_messages_by_thread db thread.id
      let started := Chunk.messageStarted assistant_message_id
      match env.openErr with
      | some e =>
        let db1 := store_user_message_on_error (fresh 0) env.storeUserFails db
          thread.id user_message_id query
        ⟨[created, started], db1, some e⟩
      | none =>
        let deltas := env.tokens.map (Chunk.textDelta assistant_message_id)
        match env.streamErr with
        | some e =>
          let db1 := store_user_message_on_error (fresh 0) env.storeUserFails db
            thread.id user_message_id query
          ⟨[created, started] ++ deltas, db1, some e⟩
        | none =>
          match save_agent_messages fresh env.persistEngineFails db thread.id
              env.newMessages (some assistant_message_id) with
          | (.error e, db1) =>
            let db2 := store_user_message_on_error (fresh 0) env.storeUserFails db1
              thread.id user_message_id query
            ⟨[created, started] ++ deltas, db2, some e⟩
          | (.ok _, db1) =>
            ⟨[created, started] ++ deltas ++
              [Chunk.messageComplete assistant_message_id], db1, none⟩

/-- The `except` chain of the streaming handler `stream_agent_query`
(src/service/api/agent/handlers.py:139-152), converting the escaping
exception to an in-band error chunk. `AgentTypeError` and the database errors
reach the final `except Exception` branch. -/
def errChunkOf : Err → Chunk
  | .threadNotFound m => .errorChunk "THREAD_NOT_FOUND" m
  | .threadPermission m => .errorChunk "PERMISSION_DENIED" m
  | .emptyResponse m => .errorChunk "EMPTY_RESPONSE" m
  | .modelResponseFormat m => .errorChunk "FORMAT_ERROR" m
  | .valueError m => .errorChunk "AGENT_ERROR" m
  | .agentType m => .errorChunk "SYSTEM_ERROR" ("Unexpected error: " ++ m)
  | .recordCreation m => .errorChunk "SYSTEM_ERROR" ("Unexpected error: " ++ m)
  | .other m => .errorChunk "SYSTEM_ERROR" ("Unexpected error: " ++ m)

/-- Streaming handler `stream_agent_query`
(src/service/api/agent/handlers.py:111-155): forward the generator's chunks,
convert an escaping exception into an error chunk, and always emit one final
done chunk. -/
def handler_stream_agent_query (fresh : Nat → String) (env : StreamEnv)
    (db : DB) (query : String) (thread : ThreadRow)
    (user_message_id assistant_message_id : String) : List Chunk × DB :=
  let r := ops_stream_agent_query fresh env db query thread
    user_message_id assistant_message_id
  match r.err with
  | none => (r.chunks ++ [Chunk.done], r.db)
  | some e => (r.chunks ++ [errChunkOf e, Chunk.done], r.db)

/-- `ThreadDetailResponse` as assembled by `get_thread_by_id`. -/
structure ThreadDetail where
  id : String
  user_id : String
  agent_type : Option String
  created_at : Nat
  updated_at : Nat
  messages : List MessageResponse
deriving DecidableEq, Repr

/-- The list comprehension `[db_to_api_message(m) for m in messages]`
(src/service/api/thread/handlers.py:118): converts in order, propagating the
first raised conversion error. -/
def db_to_api_messages : List MessageRow → Except String (List MessageResponse)
  | [] => .ok []
  | m :: rest =>
    match db_to_api_message m with
    | .error e => .error e
    | .ok r =>
      match db_to_api_messages rest with
      | .error e => .error e
      | .ok rs => .ok (r :: rs)

/-- `get_thread_by_id` (src/service/api/thread/handlers.py:88-136): verify
access, load the thread's messages, convert every one for display, and map
raised exceptions to HTTP statuses — 404 for a missing thread, 403 for an
ownership mismatch, 500 for anything else (a display-conversion `ValueError`
included). -/
def get_thread_by_id (db : DB) (thread_id : String) (user_id : String) :
    Except (Nat × String) ThreadDetail :=
  match verify_thread_access db thread_id user_id with
  | .error (.threadNotFound m) => .error (404, m)
  | .error (.threadPermission m) => .error (403, m)
  | .error e => .error (500, e.message)
  | .ok thread =>
    match db_to_api_messages (get_messages_by_thread db thread_id) with
    | .error e => .error (500, e)
    | .ok messages =>
        .ok ⟨thread.id, thread.user_id, thread.agent_type, thread.created_at,
          thread.updated_at, messages⟩

/-! ## Shared fixtures for concrete evaluations -/

/-- A concrete `uuid4` supply: pairwise distinct, never empty. -/
def exFresh : Nat → String := fun k => "fresh-" ++ String.mk (List.replicate k 'x')

/-- A concrete thread owned by `u1` running the bank-support agent. -/
def exThread : ThreadRow := ⟨"t1", "u1", some "bank_support", 0, 0⟩

/-- A concrete store holding just `exThread` and no messages. -/
def exDb : DB := ⟨[exThread], [], 10⟩

/-! ## General lemmas about the embedded operations -/

theorem insertByCreatedAt_ne_nil (m : MessageRow) (l : List MessageRow) :
    insertByCreatedAt m l ≠ [] := by
  cases l with
  | nil => simp [insertByCreatedAt]
  | cons x xs =>
    simp only [insertByCreatedAt]
    split <;> simp

theorem sortByCreatedAt_eq_nil_iff (l : List MessageRow) :
    sortByCreatedAt l = [] ↔ l = [] := by
  cases l with
  | nil => simp [sortByCreatedAt]
  | cons x xs =>
    simp only [sortByCreatedAt]
    constructor
    · intro h
      exact absurd h (insertByCreatedAt_ne_nil _ _)
    · intro h
      exact absurd h (by simp)

theorem insertByCreatedAt_of_lt (m : MessageRow) (l : List MessageRow)
    (h : ∀ x ∈ l, m.created_at < x.created_at) :
    insertByCreatedAt m l = m :: l := by
  cases l with
  | nil => rfl
  | cons x xs =>
    simp only [insertByCreatedAt]
    rw [if_pos (h x (by simp))]

/-- A list already sorted strictly by `created_at` is a fixed point of the
`ORDER BY created_at` model. -/
theorem sortByCreatedAt_of_sorted (l : List MessageRow)
    (h : l.Pairwise (fun a b => a.created_at < b.created_at)) :
    sortByCreatedAt l = l := by
  induction l with
  | nil => rfl
  | cons x xs ih =>
    rw [List.pairwise_cons] at h
    simp only [sortByCreatedAt]
    rw [ih h.2, insertByCreatedAt_of_lt x xs h.1]

/-! ## C5 — thread access guard -/

/-- C5: `verify_thread_access` propagates `ThreadNotFoundError` when the
thread is absent, raises `ThreadPermissionError` exactly when the
(string-normalised) owner differs from the requester — so for owners A ≠ B a
request by B never obtains the thread — and returns the thread only on a
match; being a pure read (no `DB` in its result type), it performs no
writes. -/
theorem verify_thread_access_spec (db : DB) (thread_id : String) :
    (db.threads.find? (fun t => t.id == thread_id) = none →
      ∀ user_id, verify_thread_access db thread_id user_id =
        .error (.threadNotFound ("Thread with ID " ++ thread_id ++ " not found"))) ∧
    (∀ t, db.threads.find? (fun t => t.id == thread_id) = some t →
      (∀ user_id, t.user_id ≠ user_id →
        verify_thread_access db thread_id user_id =
          .error (.threadPermission ("User with ID " ++ user_id ++
            " does not have permission to access thread with ID " ++ thread_id))) ∧
      (∀ user_id, t.user_id = user_id →
        verify_thread_access db thread_id user_id = .ok t) ∧
      (∀ a b, a ≠ b → t.user_id = a →
        ∀ th, verify_thread_access db thread_id b ≠ .ok th)) := by
  refine ⟨fun hnone user_id => ?_, fun t hsome => ⟨fun user_id hne => ?_, fun user_id heq => ?_, ?_⟩⟩
  · simp [verify_thread_access, get_thread, hnone]
  · simp only [verify_thread_access, get_thread, hsome]
    rw [if_pos (by simpa using hne)]
  · simp only [verify_thread_access, get_thread, hsome]
    rw [if_neg (by simpa using heq)]
  · intro a b hab hta th hok
    simp only [verify_thread_access, get_thread, hsome] at hok
    by_cases h : t.user_id != b
    · rw [if_pos h] at hok
      exact Except.noConfusion hok
    · simp only [bne_iff_ne, ne_eq, not_not] at h
      exact hab (hta ▸ h)

/-- C5 witness: on the concrete store, a request by `u2` for `u1`'s thread
fails with the permission error. -/
theorem verify_thread_access_spec_witness :
    verify_thread_access exDb "t1" "u2" =
      .error (.threadPermission
        "User with ID u2 does not have permission to access thread with ID t1") := by
  have h := (verify_thread_access_spec exDb "t1").2 exThread (by decide)
  exact h.1 "u2" (by decide)

/-! ## C9 — message inserts never touch the thread row -/

/-- C9 counterexample: inserting a message into `exThread`'s thread at server
clock 10 leaves the thread row — `updated_at` included — exactly as it was
(`updated_at` stays 0 while the new message carries `created_at` 10), so an
owned-message insert does not bump the thread's `updated_at`. -/
theorem message_insert_does_not_bump_updated_at :
    create_message "m-fresh" false exDb
        ⟨some "m1", "t1", .user, dump_json [.request [⟨.userPrompt, "hello"⟩]]⟩ =
      (.ok ⟨"m1", "t1", .user, dump_json [.request [⟨.userPrompt, "hello"⟩]], 10⟩,
        ⟨[⟨"t1", "u1", some "bank_support", 0, 0⟩],
         [⟨"m1", "t1", .user, dump_json [.request [⟨.userPrompt, "hello"⟩]], 10⟩], 11⟩) := by
  rfl

/-- C9 (amended): message inserts — single or batch — are a pure frame over
the `threads` table: every thread row, all five fields included, is unchanged;
in particular `updated_at` is not bumped (it changes only on a direct update
of the thread row, which no current write path performs). -/
theorem message_insert_thread_frame (fresh : Nat → String) (fresh_id : String)
    (engineFails : Bool) (db : DB) (message_data : MessageCreate)
    (thread_id : String) (messages_data : List MessageCreate) :
    (create_message fresh_id engineFails db message_data).2.threads = db.threads ∧
    (create_messages_batch fresh engineFails db thread_id messages_data).2.threads
      = db.threads := by
  constructor
  · simp only [create_message]
    split <;> rfl
  · simp only [create_messages_batch]
    split
    · rfl
    · split
      · rfl
      · split <;> rfl

/-! ## C1 — the empty-persist failure class and its HTTP status -/

/-- C1: on a non-streaming query whose persistence step produces zero
storable messages, the try-body of `save_agent_messages` does raise
`EmptyResponseError`, but the function's blanket `except` re-raises it as
`ValueError("Error saving agent messages: …")`; the handler therefore takes
its `ValueError` branch and answers 400 — not the dedicated
`EmptyResponseError` branch, which would have answered 422. -/
theorem empty_persist_raises_valueerror_mapped_400 :
    (save_agent_messages_attempt exFresh false exDb "t1" [] none).1
      = .error (.emptyResponse "Failed to generate agent response") ∧
    (ops_run_agent_query exFresh ⟨none, [], "out", false⟩ exDb exThread).1
      = .error (.valueError
          "Error saving agent messages: Failed to generate agent response") ∧
    run_agent_query_status
        (.valueError "Error saving agent messages: Failed to generate agent response")
      = 400 ∧
    run_agent_query_status (.emptyResponse "Failed to generate agent response") = 422 := by
  exact ⟨rfl, rfl, rfl, rfl⟩

/-! ## C8 — history decoding is total and lenient -/

theorem foldl_extend_eq_filterMap_flatten (l : List MessageRow)
    (acc : List ModelMessage) :
    l.foldl
      (fun model_messages m =>
        match validate_json m.raw_json_text with
        | some parsed => model_messages ++ parsed
        | none => model_messages) acc
      = acc ++ (l.filterMap (fun m => validate_json m.raw_json_text)).flatten := by
  induction l generalizing acc with
  | nil => simp
  | cons x xs ih =>
    simp only [List.foldl_cons, List.filterMap_cons]
    cases h : validate_json x.raw_json_text with
    | none => simp [h, ih]
    | some parsed => simp [h, ih]

theorem filterMap_eq_filterMap_filter_isSome {α β : Type} (f : α → Option β)
    (l : List α) :
    l.filterMap f = (l.filter (fun a => (f a).isSome)).filterMap f := by
  induction l with
  | nil => rfl
  | cons x xs ih =>
    simp only [List.filterMap_cons, List.filter_cons]
    cases h : f x with
    | none => simpa [h] using ih
    | some b => simpa [h] using ih

/-- C8: decoding a thread's history never fails — the embedding of
`get_model_messages_by_thread` is a total function into message lists — and
its value is exactly the in-order concatenation of the messages parsed from
the payloads the adapter accepts, taken over the thread's rows in created-at
ascending order; rows whose payload fails to parse contribute nothing. -/
theorem decode_history_total (db : DB) (thread_id : String) :
    get_model_messages_by_thread db thread_id
      = ((get_messages_by_thread db thread_id).filterMap
          (fun m => validate_json m.raw_json_text)).flatten ∧
    get_model_messages_by_thread db thread_id
      = (((get_messages_by_thread db thread_id).filter
            (fun m => (validate_json m.raw_json_text).isSome)).filterMap
          (fun m => validate_json m.raw_json_text)).flatten := by
  constructor
  · simpa using foldl_extend_eq_filterMap_flatten (get_messages_by_thread db thread_id) []
  · rw [← filterMap_eq_filterMap_filter_isSome]
    simpa using foldl_extend_eq_filterMap_flatten (get_messages_by_thread db thread_id) []

/-! ## C10 — display rendering is strict where decoding is lenient -/

theorem db_to_api_message_error_of_unparseable (m : MessageRow)
    (hne : m.raw_json_text.isEmptyText = false)
    (hv : validate_json m.raw_json_text = none) :
    ∃ e, db_to_api_message m = .error e := by
  simp only [db_to_api_message]
  split
  · exact ⟨_, rfl⟩
  · simp only [_raw_json_to_content, hne, Bool.false_eq_true, if_false, hv]
    exact ⟨_, rfl⟩

theorem db_to_api_messages_error_of_mem (l : List MessageRow) (m : MessageRow)
    (hm : m ∈ l) (he : ∃ e, db_to_api_message m = .error e) :
    ∃ e, db_to_api_messages l = .error e := by
  induction l with
  | nil => cases hm
  | cons x xs ih =>
    simp only [db_to_api_messages]
    cases List.mem_cons.mp hm with
    | inl hx =>
      obtain ⟨e, hex⟩ := he
      subst hx
      rw [hex]
      exact ⟨e, rfl⟩
    | inr hxs =>
      cases hx : db_to_api_message x with
      | error e => exact ⟨e, rfl⟩
      | ok r =>
        obtain ⟨e, hel⟩ := ih hxs
        rw [hel]
        exact ⟨e, rfl⟩

/-- C10: display rendering is strict while decoding is lenient — if an
accessible thread holds a message whose stored payload is non-empty yet
rejected by the adapter, `db_to_api_message` raises (a wrapped `ValueError`),
so the whole `GET /threads/{id}` request answers 500, whereas the history
decoder of the very same store simply skips every unparseable row. -/
theorem display_strict_decode_lenient (db : DB) (thread_id user_id : String)
    (t : ThreadRow) (hok : verify_thread_access db thread_id user_id = .ok t)
    (m : MessageRow) (hm : m ∈ get_messages_by_thread db thread_id)
    (hne : m.raw_json_text.isEmptyText = false)
    (hv : validate_json m.raw_json_text = none) :
    (∃ msg, get_thread_by_id db thread_id user_id = .error (500, msg)) ∧
    get_model_messages_by_thread db thread_id
      = (((get_messages_by_thread db thread_id).filter
            (fun x => (validate_json x.raw_json_text).isSome)).filterMap
          (fun x => validate_json x.raw_json_text)).flatten := by
  constructor
  · obtain ⟨e, he⟩ := db_to_api_messages_error_of_mem _ m hm
      (db_to_api_message_error_of_unparseable m hne hv)
    refine ⟨e, ?_⟩
    simp only [get_thread_by_id, hok, he]
  · exact (decode_history_total db thread_id).2

/-- A store whose only thread holds a single message with a non-empty,
unparseable payload. -/
def exBadDb : DB := ⟨[exThread], [⟨"m1", "t1", .user, .malformed "xx", 3⟩], 10⟩

/-- C10 witness: on the concrete store with one unparseable payload, the
detail endpoint answers 500 while the history decoder returns the (empty)
parsed history. -/
theorem display_strict_decode_lenient_witness :
    (∃ msg, get_thread_by_id exBadDb "t1" "u1" = .error (500, msg)) ∧
    get_model_messages_by_thread exBadDb "t1" = [] := by
  have h := display_strict_decode_lenient exBadDb "t1" "u1" exThread (by rfl)
    ⟨"m1", "t1", .user, .malformed "xx", 3⟩ (by decide) (by rfl) (by rfl)
  exact ⟨h.1, by rw [h.2]; rfl⟩

/-! ## C2 — best-effort persistence of the user's query on stream failure -/

theorem store_user_message_success (fresh_id : String) (db : DB)
    (thread_id user_message_id query : String)
    (hnm : db.messages.any (fun m => m.id == user_message_id) = false) :
    store_user_message_on_error fresh_id false db thread_id user_message_id query
      = ⟨db.threads,
         db.messages ++ [⟨user_message_id, thread_id, .user,
           dump_json [.request [⟨.userPrompt, query⟩]], db.clock⟩],
         db.clock + 1⟩ := by
  simp [store_user_message_on_error, create_message, hnm]

/-- C2 counterexample: a failure while loading history (step 4) escapes the
generator with no user-message persistence at all — the store is returned
unchanged, holding no row with the pre-assigned user-message ID — because
the `try` block guarding `store_user_message_on_error` only begins at the
`run_stream` call, after history has been loaded. -/
theorem history_failure_skips_user_persist :
    ops_stream_agent_query exFresh
        ⟨some (.other "history load failed"), none, [], none, [], false, false⟩
        exDb "q" exThread "UM" "AM"
      = ⟨[.messageCreated "UM" .user], exDb, some (.other "history load failed")⟩ ∧
    exDb.messages = [] := by
  exact ⟨rfl, rfl⟩

/-- C2 (amended): for failures inside the guarded block — opening the agent
stream, the mid-stream run, or the persistence of its result — the user's
query is persisted best-effort as a single user-role message carrying the
pre-assigned user-message ID, in its own transaction, before the original
failure propagates (to become an error chunk at the handler); a secondary
failure of that persistence attempt is swallowed, the original error still
propagating. Failures while loading history (before the guarded block)
propagate without any such persistence. -/
theorem guarded_stream_failure_persists_user_query (fresh : Nat → String)
    (env : StreamEnv) (db : DB) (query : String) (thread : ThreadRow)
    (umid amid s : String)
    (hres : resolve_agent thread.agent_type = .ok s)
    (hhist : env.historyErr = none) :
    (∀ e, env.openErr = some e →
      (ops_stream_agent_query fresh env db query thread umid amid).err = some e ∧
      (env.storeUserFails = false →
        db.messages.any (fun m => m.id == umid) = false →
        (ops_stream_agent_query fresh env db query thread umid amid).db.messages
          = db.messages ++ [⟨umid, thread.id, .user,
              dump_json [.request [⟨.userPrompt, query⟩]], db.clock⟩])) ∧
    (env.openErr = none → ∀ e, env.streamErr = some e →
      (ops_stream_agent_query fresh env db query thread umid amid).err = some e ∧
      (env.storeUserFails = false →
        db.messages.any (fun m => m.id == umid) = false →
        (ops_stream_agent_query fresh env db query thread umid amid).db.messages
          = db.messages ++ [⟨umid, thread.id, .user,
              dump_json [.request [⟨.userPrompt, query⟩]], db.clock⟩])) ∧
    (env.openErr = none → env.streamErr = none →
      ∀ e db1, save_agent_messages fresh env.persistEngineFails db thread.id
          env.newMessages (some amid) = (.error e, db1) →
      (ops_stream_agent_query fresh env db query thread umid amid).err = some e ∧
      (env.storeUserFails = false →
        db1.messages.any (fun m => m.id == umid) = false →
        (ops_stream_agent_query fresh env db query thread umid amid).db.messages
          = db1.messages ++ [⟨umid, thread.id, .user,
              dump_json [.request [⟨.userPrompt, query⟩]], db1.clock⟩])) := by
  refine ⟨fun e hopen => ?_, fun hopen e hstream => ?_, fun hopen hstream e db1 hsave => ?_⟩
  · simp only [ops_stream_agent_query, hres, hhist, hopen]
    refine ⟨by trivial, fun hsw hnm => ?_⟩
    rw [hsw, store_user_message_success _ db _ _ _ hnm]
  · simp only [ops_stream_agent_query, hres, hhist, hopen, hstream]
    refine ⟨by trivial, fun hsw hnm => ?_⟩
    rw [hsw, store_user_message_success _ db _ _ _ hnm]
  · simp only [ops_stream_agent_query, hres, hhist, hopen, hstream, hsave]
    refine ⟨by trivial, fun hsw hnm => ?_⟩
    rw [hsw, store_user_message_success _ db1 _ _ _ hnm]

/-- C2 witness: on the concrete store, a failure opening the agent stream
propagates while the user's query lands as a user-role row with the
pre-assigned ID. -/
theorem guarded_stream_failure_persists_user_query_witness :
    (ops_stream_agent_query exFresh
        ⟨none, some (.other "open failed"), [], none, [], false, false⟩
        exDb "q" exThread "UM" "AM").err = some (.other "open failed") ∧
    (ops_stream_agent_query exFresh
        ⟨none, some (.other "open failed"), [], none, [], false, false⟩
        exDb "q" exThread "UM" "AM").db.messages
      = exDb.messages ++ [⟨"UM", exThread.id, .user,
          dump_json [.request [⟨.userPrompt, "q"⟩]], exDb.clock⟩] := by
  have h := (guarded_stream_failure_persists_user_query exFresh
    ⟨none, some (.other "open failed"), [], none, [], false, false⟩
    exDb "q" exThread "UM" "AM" "bank_support" rfl rfl).1 (.other "open failed") rfl
  exact ⟨h.1, h.2 rfl rfl⟩

/-! ## C3 — shape of the emitted chunk sequence -/

theorem errChunkOf_ne_done (e : Err) : errChunkOf e ≠ Chunk.done := by
  cases e <;> simp [errChunkOf]

theorem errChunkOf_ne_textDelta (e : Err) (message_id token : String) :
    errChunkOf e ≠ Chunk.textDelta message_id token := by
  cases e <;> simp [errChunkOf]

/-- Case analysis on the chunks the generator itself yields when agent-type
validation succeeds: either just the created announcement (history failed),
or created and started followed only by text deltas for the assistant ID and
possibly its completion chunk. -/
theorem ops_stream_chunks_cases (fresh : Nat → String) (env : StreamEnv)
    (db : DB) (query : String) (thread : ThreadRow) (umid amid s : String)
    (hres : resolve_agent thread.agent_type = .ok s) :
    (ops_stream_agent_query fresh env db query thread umid amid).chunks
        = [.messageCreated umid .user] ∨
    ∃ rest, (ops_stream_agent_query fresh env db query thread umid amid).chunks
        = .messageCreated umid .user :: .messageStarted amid :: rest ∧
      ∀ c ∈ rest, (∃ tok, c = .textDelta amid tok) ∨ c = .messageComplete amid := by
  simp only [ops_stream_agent_query, hres]
  cases env.historyErr with
  | some e => exact Or.inl rfl
  | none =>
    cases env.openErr with
    | some e => exact Or.inr ⟨[], rfl, by simp⟩
    | none =>
      cases env.streamErr with
      | some e =>
        refine Or.inr ⟨env.tokens.map (Chunk.textDelta amid), rfl, fun c hc => ?_⟩
        obtain ⟨tok, _, htok⟩ := List.mem_map.mp hc
        exact Or.inl ⟨tok, htok.symm⟩
      | none =>
        rcases hsv : save_agent_messages fresh env.persistEngineFails db thread.id
          env.newMessages (some amid) with ⟨res, db1⟩
        cases res with
        | error e =>
          refine Or.inr ⟨env.tokens.map (Chunk.textDelta amid), by simp, fun c hc => ?_⟩
          obtain ⟨tok, _, htok⟩ := List.mem_map.mp hc
          exact Or.inl ⟨tok, htok.symm⟩
        | ok api =>
          refine Or.inr ⟨env.tokens.map (Chunk.textDelta amid) ++
            [Chunk.messageComplete amid], by simp, fun c hc => ?_⟩
          cases List.mem_append.mp hc with
          | inl hd =>
            obtain ⟨tok, _, htok⟩ := List.mem_map.mp hd
            exact Or.inl ⟨tok, htok.symm⟩
          | inr hcomp => exact Or.inr (by simpa using hcomp)

/-- The generator itself never yields a done chunk (only the handler appends
it). -/
theorem done_not_mem_ops_stream_chunks (fresh : Nat → String) (env : StreamEnv)
    (db : DB) (query : String) (thread : ThreadRow) (umid amid : String) :
    Chunk.done ∉ (ops_stream_agent_query fresh env db query thread umid amid).chunks := by
  rcases hres : resolve_agent thread.agent_type with e | s
  · simp [ops_stream_agent_query, hres]
  · rcases ops_stream_chunks_cases fresh env db query thread umid amid s hres with
      h | ⟨rest, h, hrest⟩
    · simp [h]
    · rw [h]
      intro hmem
      rcases List.mem_cons.mp hmem with h0 | hmem
      · exact Chunk.noConfusion h0
      rcases List.mem_cons.mp hmem with h1 | hmem
      · exact Chunk.noConfusion h1
      rcases hrest _ hmem with ⟨tok, htok⟩ | hcomp
      · exact Chunk.noConfusion htok
      · exact Chunk.noConfusion hcomp

/-- C3 counterexample: a streaming query on a thread whose agent-type
validation fails (no agent type set) emits `[error, done]` — the sequence
does not start with a message-created chunk of role user. -/
theorem invalid_agent_type_stream_starts_with_error :
    (handler_stream_agent_query exFresh ⟨none, none, [], none, [], false, false⟩
        exDb "q" ⟨"t1", "u1", none, 0, 0⟩ "UM" "AM").1
      = [.errorChunk "SYSTEM_ERROR" "Unexpected error: Thread must have a valid agent_type",
         .done] := by
  rfl

/-- C3 (amended): every emitted chunk sequence ends with exactly one done
chunk, whether or not an error chunk was emitted; and whenever the thread's
agent-type validation succeeds (the failure case instead opens with an error
chunk), the sequence starts with a message-created chunk of role user, and a
message-started chunk for the assistant-message ID precedes any text-delta
chunk carrying that ID. -/
theorem streaming_chunk_contract (fresh : Nat → String) (env : StreamEnv)
    (db : DB) (query : String) (thread : ThreadRow) (umid amid : String) :
    ((handler_stream_agent_query fresh env db query thread umid amid).1.getLast?
        = some .done ∧
     (handler_stream_agent_query fresh env db query thread umid amid).1.count .done
        = 1) ∧
    (∀ s, resolve_agent thread.agent_type = .ok s →
      (handler_stream_agent_query fresh env db query thread umid amid).1.head?
          = some (.messageCreated umid .user) ∧
      (∀ i tok, (handler_stream_agent_query fresh env db query thread umid amid).1.get? i
            = some (.textDelta amid tok) →
        ∃ j, j < i ∧ (handler_stream_agent_query fresh env db query thread umid amid).1.get? j
            = some (.messageStarted amid))) := by
  have hnm := done_not_mem_ops_stream_chunks fresh env db query thread umid amid
  constructor
  · rcases herr : (ops_stream_agent_query fresh env db query thread umid amid).err with _ | e
    · simp only [handler_stream_agent_query, herr]
      constructor
      · exact List.getLast?_concat _
      · rw [List.count_append]
        rw [List.count_eq_zero.mpr hnm]
        rfl
    · simp only [handler_stream_agent_query, herr]
      constructor
      · rw [show (ops_stream_agent_query fresh env db query thread umid amid).chunks ++
            [errChunkOf e, Chunk.done]
            = ((ops_stream_agent_query fresh env db query thread umid amid).chunks ++
              [errChunkOf e]) ++ [Chunk.done] by simp]
        exact List.getLast?_concat _
      · rw [List.count_append]
        rw [List.count_eq_zero.mpr hnm]
        simp [List.count_cons, errChunkOf_ne_done e]
  · intro s hres
    rcases ops_stream_chunks_cases fresh env db query thread umid amid s hres with
      h | ⟨rest, h, hrest⟩
    · rcases herr : (ops_stream_agent_query fresh env db query thread umid amid).err with _ | e <;>
        simp only [handler_stream_agent_query, herr, h]
      all_goals {
        refine ⟨rfl, fun i tok hget => absurd (List.get?_mem hget) ?_⟩
        intro hmem
        rcases List.mem_cons.mp hmem with h0 | hmem
        · exact Chunk.noConfusion h0
        first
        | (rcases List.mem_cons.mp hmem with h1 | hmem
           · exact (errChunkOf_ne_textDelta _ _ _) h1.symm
           rcases List.mem_cons.mp hmem with h2 | hmem
           · exact Chunk.noConfusion h2
           · cases hmem)
        | (rcases List.mem_cons.mp hmem with h1 | hmem
           · exact Chunk.noConfusion h1
           · cases hmem)
      }
    · rcases herr : (ops_stream_agent_query fresh env db query thread umid amid).err with _ | e <;>
        simp only [handler_stream_agent_query, herr, h]
      all_goals {
        refine ⟨rfl, fun i tok hget => ?_⟩
        match i with
        | 0 => exact absurd hget (by simp)
        | 1 => exact absurd hget (by simp)
        | Nat.succ (Nat.succ i) => exact ⟨1, by omega, rfl⟩
      }

/-- C3 witness: on a concrete successful streaming run the sequence is
created, started, delta, complete, done — it opens with the user
message-created chunk, the started chunk precedes the delta, and done is
terminal and unique. -/
theorem streaming_chunk_contract_witness :
    ((handler_stream_agent_query exFresh
        ⟨none, none, ["tok"], none, [.response [⟨.text, "yo"⟩]], false, false⟩
        exDb "q" exThread "UM" "AM").1.head?
      = some (.messageCreated "UM" .user)) ∧
    ((handler_stream_agent_query exFresh
        ⟨none, none, ["tok"], none, [.response [⟨.text, "yo"⟩]], false, false⟩
        exDb "q" exThread "UM" "AM").1.getLast? = some .done) := by
  have h := streaming_chunk_contract exFresh
    ⟨none, none, ["tok"], none, [.response [⟨.text, "yo"⟩]], false, false⟩
    exDb "q" exThread "UM" "AM"
  exact ⟨(h.2 "bank_support" rfl).1, h.1.1⟩

/-! ## C4 — storage-encoding classification and ID assignment -/

/-- The option-wrapped IDs of `n` consecutive fresh `uuid4` draws starting at
position `k` of the supply. -/
def freshIds (fresh : Nat → String) (k n : Nat) : List (Option String) :=
  (List.range n).map (fun i => some (fresh (k + i)))

theorem freshIds_succ (fresh : Nat → String) (k n : Nat) :
    freshIds fresh k (n + 1) = some (fresh k) :: freshIds fresh (k + 1) n := by
  simp only [freshIds, List.range_succ_eq_map, List.map_cons, List.map_map,
    Nat.add_zero]
  congr 1
  apply List.map_congr_left
  intro i _
  simp only [Function.comp_apply, Nat.succ_eq_add_one]
  have h : k + (i + 1) = k + 1 + i := by omega
  rw [h]

theorem prepare_go_map_role (fresh : Nat → String) (tid : String)
    (aid : Option String) :
    ∀ (msgs : List ModelMessage) (found : Bool) (k : Nat),
      (_prepare_agent_messages_go fresh tid aid msgs found k).map (fun mc => mc.role)
        = msgs.filterMap _determine_message_role := by
  intro msgs
  induction msgs with
  | nil => intro found k; rfl
  | cons m rest ih =>
    intro found k
    simp only [_prepare_agent_messages_go, List.filterMap_cons]
    cases h : _determine_message_role m with
    | none =>
      simp only [h]
      exact ih found k
    | some r =>
      simp only [h]
      split <;> simp [ih]

theorem prepare_go_map_id_noassign (fresh : Nat → String) (tid : String) :
    ∀ (aid : Option String) (msgs : List ModelMessage) (found : Bool) (k : Nat),
      (aid.isSome = false ∨ found = true) →
      (_prepare_agent_messages_go fresh tid aid msgs found k).map (fun mc => mc.id)
        = freshIds fresh k
            (_prepare_agent_messages_go fresh tid aid msgs found k).length := by
  intro aid msgs
  induction msgs with
  | nil => intro found k _; rfl
  | cons m rest ih =>
    intro found k hna
    simp only [_prepare_agent_messages_go]
    cases h : _determine_message_role m with
    | none =>
      simp only [h]
      exact ih found k hna
    | some r =>
      simp only [h]
      split
      · next hcond =>
          exfalso
          rcases hna with hn | hf
          · simp [hn] at hcond
          · simp [hf] at hcond
      · simp only [List.map_cons, List.length_cons]
        rw [ih found (k + 1) hna, freshIds_succ]

theorem prepare_go_map_id_first_assistant (fresh : Nat → String) (tid : String)
    (a : String) :
    ∀ (msgs : List ModelMessage) (k : Nat),
      (_prepare_agent_messages_go fresh tid (some a) msgs false k).map (fun mc => mc.id)
        = (freshIds fresh k
            (_prepare_agent_messages_go fresh tid (some a) msgs false k).length).set
            ((_prepare_agent_messages_go fresh tid (some a) msgs false k).findIdx
              (fun mc => mc.role == .assistant)) (some a) := by
  intro msgs
  induction msgs with
  | nil => intro k; rfl
  | cons m rest ih =>
    intro k
    simp only [_prepare_agent_messages_go]
    cases h : _determine_message_role m with
    | none =>
      simp only [h]
      exact ih k
    | some r =>
      simp only [h]
      by_cases hr : r = MessageRole.assistant
      · subst hr
        split
        · simp only [List.map_cons, List.length_cons, List.findIdx_cons,
            beq_self_eq_true, cond_true]
          rw [freshIds_succ]
          simp only [List.set]
          rw [prepare_go_map_id_noassign fresh tid (some a) rest true (k + 1)
            (Or.inr rfl)]
        · next hcond => simp at hcond
      · split
        · next hcond => simp [hr] at hcond
        · simp only [List.map_cons, List.length_cons, List.findIdx_cons]
          have hbeq : (r == MessageRole.assistant) = false := by
            simpa using hr
          rw [hbeq]
          simp only [cond_false]
          rw [freshIds_succ]
          simp only [List.set]
          rw [ih (k + 1)]

/-- C4: storage-encoding classification and ID assignment. A request message
is classified `system` exactly when it contains a system-prompt part and
`user` otherwise, a response message is `assistant`, and an unrecognised
message yields no role — the encoded output's roles are precisely the
classifiable ones in order (unrecognised messages are dropped). With no
pre-assigned ID every encoded message receives the next fresh draw; with a
pre-assigned ID the encoded output's IDs are the fresh draws with the entry
at the first assistant-role position replaced by the pre-assigned ID (when no
assistant message exists, `findIdx` is the length and nothing is replaced). -/
theorem prepare_agent_messages_spec (fresh : Nat → String) (thread_id : String)
    (model_messages : List ModelMessage) :
    (∀ parts, _determine_message_role (.request parts)
        = some (if parts.any (fun p => p.part_kind == .systemPrompt)
            then .system else .user)) ∧
    (∀ parts, _determine_message_role (.response parts) = some .assistant) ∧
    (_determine_message_role .unknown = none) ∧
    (∀ aid, (_prepare_agent_messages fresh thread_id model_messages aid).map
          (fun mc => mc.role)
        = model_messages.filterMap _determine_message_role) ∧
    ((_prepare_agent_messages fresh thread_id model_messages none).map
          (fun mc => mc.id)
        = freshIds fresh 0
            (_prepare_agent_messages fresh thread_id model_messages none).length) ∧
    (∀ a, (_prepare_agent_messages fresh thread_id model_messages (some a)).map
          (fun mc => mc.id)
        = (freshIds fresh 0
            (_prepare_agent_messages fresh thread_id model_messages (some a)).length).set
            ((_prepare_agent_messages fresh thread_id model_messages (some a)).findIdx
              (fun mc => mc.role == .assistant)) (some a)) := by
  refine ⟨fun parts => ?_, fun parts => rfl, rfl, fun aid => ?_, ?_, fun a => ?_⟩
  · cases parts with
    | nil => simp [_determine_message_role]
    | cons hd tl =>
      simp [_determine_message_role]
      split <;> rfl
  · exact prepare_go_map_role fresh thread_id aid model_messages false 0
  · exact prepare_go_map_id_noassign fresh thread_id none model_messages false 0
      (Or.inl rfl)
  · exact prepare_go_map_id_first_assistant fresh thread_id a model_messages 0

/-! ## C7 — batch insert is all-or-nothing -/

theorem isEmpty_false_of_ne_nil {α : Type} (l : List α) (h : l ≠ []) :
    l.isEmpty = false := by
  cases l with
  | nil => exact absurd rfl h
  | cons x xs => rfl

theorem assignIds_length (fresh : Nat → String) :
    ∀ (l : List MessageCreate) (k : Nat), (assignIds fresh l k).length = l.length := by
  intro l
  induction l with
  | nil => intro k; rfl
  | cons x xs ih =>
    intro k
    cases hx : x.id <;> simp [assignIds, hx, ih]

theorem buildRows_length (thread_id : String) :
    ∀ (l : List (String × MessageCreate)) (clock : Nat),
      (buildRows thread_id clock l).length = l.length := by
  intro l
  induction l with
  | nil => intro clock; rfl
  | cons p rest ih =>
    intro clock
    cases p
    simp [buildRows, ih]

theorem buildRows_map_id (thread_id : String) :
    ∀ (l : List (String × MessageCreate)) (clock : Nat),
      (buildRows thread_id clock l).map (fun m => m.id) = l.map Prod.fst := by
  intro l
  induction l with
  | nil => intro clock; rfl
  | cons p rest ih =>
    intro clock
    cases p
    simp [buildRows, ih]

theorem buildRows_map_raw (thread_id : String) :
    ∀ (l : List (String × MessageCreate)) (clock : Nat),
      (buildRows thread_id clock l).map (fun m => m.raw_json_text)
        = l.map (fun p => p.2.raw_json) := by
  intro l
  induction l with
  | nil => intro clock; rfl
  | cons p rest ih =>
    intro clock
    cases p
    simp [buildRows, ih]

theorem buildRows_thread (thread_id : String) :
    ∀ (l : List (String × MessageCreate)) (clock : Nat),
      ∀ m ∈ buildRows thread_id clock l, m.thread_id = thread_id := by
  intro l
  induction l with
  | nil => intro clock m hm; cases hm
  | cons p rest ih =>
    intro clock m hm
    cases p
    rcases List.mem_cons.mp hm with h | h
    · rw [h]
    · exact ih (clock + 1) m h

theorem buildRows_created_ge (thread_id : String) :
    ∀ (l : List (String × MessageCreate)) (clock : Nat),
      ∀ m ∈ buildRows thread_id clock l, clock ≤ m.created_at := by
  intro l
  induction l with
  | nil => intro clock m hm; cases hm
  | cons p rest ih =>
    intro clock m hm
    cases p
    rcases List.mem_cons.mp hm with h | h
    · rw [h]
    · exact Nat.le_of_succ_le (ih (clock + 1) m h)

theorem buildRows_pairwise (thread_id : String) :
    ∀ (l : List (String × MessageCreate)) (clock : Nat),
      (buildRows thread_id clock l).Pairwise
        (fun a b => a.created_at < b.created_at) := by
  intro l
  induction l with
  | nil => intro clock; exact List.Pairwise.nil
  | cons p rest ih =>
    intro clock
    cases p
    rw [buildRows, List.pairwise_cons]
    refine ⟨fun m hm => ?_, ih (clock + 1)⟩
    exact Nat.lt_of_lt_of_le (Nat.lt_succ_self clock)
      (buildRows_created_ge thread_id rest (clock + 1) m hm)

/-- Rows produced by the batch insert all pass the post-insert ID filter. -/
theorem create_batch_rows_pass_filter (fresh : Nat → String) (db : DB)
    (thread_id : String) (messages_data : List MessageCreate) :
    ∀ m ∈ buildRows thread_id db.clock
        ((assignIds fresh messages_data 0).zip messages_data),
      ((assignIds fresh messages_data 0).any (fun i => i == m.id)) = true := by
  intro m hm
  have hmap : (buildRows thread_id db.clock
      ((assignIds fresh messages_data 0).zip messages_data)).map (fun m => m.id)
        = assignIds fresh messages_data 0 := by
    rw [buildRows_map_id]
    exact List.map_fst_zip _ _ (by rw [assignIds_length])
  have hmem : m.id ∈ assignIds fresh messages_data 0 := by
    rw [← hmap]
    exact List.mem_map_of_mem (fun m => m.id) hm
  exact List.any_eq_true.mpr ⟨m.id, hmem, by simp⟩

/-- C7: `create_messages_batch` is all-or-nothing. An empty batch returns the
empty sequence without error and without touching the store. For a non-empty
batch, every failure of the write path is surfaced as `RecordCreationError`
with the store exactly as before (no proper subset of the rows is visible),
and on success all N rows are appended; the zero-rows post-insert read — the
remaining `RecordCreationError` source — cannot fire after a successful
insert of a non-empty batch. -/
theorem create_messages_batch_atomic (fresh : Nat → String) (engineFails : Bool)
    (db : DB) (thread_id : String) (messages_data : List MessageCreate) :
    (messages_data = [] →
      create_messages_batch fresh engineFails db thread_id messages_data
        = (.ok [], db)) ∧
    (messages_data ≠ [] →
      (∀ e dbE, create_messages_batch fresh engineFails db thread_id messages_data
          = (.error e, dbE) → (∃ s, e = .recordCreation s) ∧ dbE = db) ∧
      (∀ rows db1, create_messages_batch fresh engineFails db thread_id messages_data
          = (.ok rows, db1) →
        rows ≠ [] ∧
        db1.messages = db.messages ++ buildRows thread_id db.clock
          ((assignIds fresh messages_data 0).zip messages_data))) := by
  constructor
  · intro h
    subst h
    rfl
  · intro hne
    have hniE : messages_data.isEmpty = false := isEmpty_false_of_ne_nil _ hne
    have hrne : buildRows thread_id db.clock
        ((assignIds fresh messages_data 0).zip messages_data) ≠ [] := by
      intro h0
      have hlen := congrArg List.length h0
      rw [buildRows_length, List.length_zip, assignIds_length, Nat.min_self] at hlen
      exact hne (List.length_eq_zero.mp hlen)
    have hfilter : ((db.messages ++ buildRows thread_id db.clock
          ((assignIds fresh messages_data 0).zip messages_data)).filter
        (fun m => (assignIds fresh messages_data 0).any (fun i => i == m.id))) ≠ [] := by
      rw [List.filter_append]
      rw [List.filter_eq_self.mpr (create_batch_rows_pass_filter fresh db thread_id
        messages_data)]
      simp [hrne]
    have hfet : (sortByCreatedAt ((db.messages ++ buildRows thread_id db.clock
          ((assignIds fresh messages_data 0).zip messages_data)).filter
        (fun m => (assignIds fresh messages_data 0).any (fun i => i == m.id)))).isEmpty
          = false := by
      apply isEmpty_false_of_ne_nil
      intro h0
      exact hfilter ((sortByCreatedAt_eq_nil_iff _).mp h0)
    constructor
    · intro e dbE heq
      simp only [create_messages_batch, hniE, Bool.false_eq_true, if_false] at heq
      revert heq
      split
      · intro heq
        rw [Prod.mk.injEq] at heq
        obtain ⟨h1, h2⟩ := heq
        have he : e = .recordCreation "Failed to create messages batch: insert failed" := by
          cases h1
          rfl
        exact ⟨⟨_, he⟩, h2.symm⟩
      · rw [hfet, if_neg Bool.false_ne_true]
        intro heq
        rw [Prod.mk.injEq] at heq
        exact absurd heq.1 (by simp)
    · intro rows db1 heq
      simp only [create_messages_batch, hniE, Bool.false_eq_true, if_false] at heq
      revert heq
      split
      · intro heq
        rw [Prod.mk.injEq] at heq
        exact absurd heq.1 (by simp)
      · rw [hfet, if_neg Bool.false_ne_true]
        intro heq
        rw [Prod.mk.injEq] at heq
        obtain ⟨h1, h2⟩ := heq
        rw [Except.ok.injEq] at h1
        constructor
        · intro h0
          subst h0
          exact hfilter ((sortByCreatedAt_eq_nil_iff _).mp h1)
        · rw [← h2]









/-- A concrete non-empty batch record for exercising the batch insert. -/
def exBatchData : List MessageCreate :=
  [⟨some "b1", "t1", .user, dump_json [.request [⟨.userPrompt, "hi"⟩]]⟩]

/-- C7 witness: on the concrete store, an engine refusal of the non-empty
batch surfaces as `RecordCreationError` with the store unchanged. -/
theorem create_messages_batch_atomic_witness :
    (∃ s, (create_messages_batch exFresh true exDb "t1" exBatchData).1
        = .error (.recordCreation s)) ∧
    (create_messages_batch exFresh true exDb "t1" exBatchData).2 = exDb := by
  have hc : create_messages_batch exFresh true exDb "t1" exBatchData
      = (.error (.recordCreation "Failed to create messages batch: insert failed"),
         exDb) := by rfl
  have h := ((create_messages_batch_atomic exFresh true exDb "t1" exBatchData).2
    (by decide)).1 _ _ hc
  obtain ⟨⟨s, hs⟩, hdb⟩ := h
  constructor
  · exact ⟨s, by rw [hc, hs]⟩
  · rw [hc]

/-! ## C6 — encode / persist / decode round-trip -/

theorem determine_role_isSome (m : ModelMessage) (h : m ≠ .unknown) :
    _determine_message_role m ≠ none := by
  cases m with
  | request parts =>
    simp only [_determine_message_role]
    split <;> simp
  | response parts => simp [_determine_message_role]
  | unknown => exact absurd rfl h

theorem prepare_go_map_raw (fresh : Nat → String) (tid : String)
    (aid : Option String) :
    ∀ (msgs : List ModelMessage) (found : Bool) (k : Nat),
      (∀ m ∈ msgs, _determine_message_role m ≠ none) →
      (_prepare_agent_messages_go fresh tid aid msgs found k).map (fun mc => mc.raw_json)
        = msgs.map (fun m => dump_json [m]) := by
  intro msgs
  induction msgs with
  | nil => intro found k _; rfl
  | cons m rest ih =>
    intro found k hdet
    simp only [_prepare_agent_messages_go, List.map_cons]
    cases h : _determine_message_role m with
    | none => exact absurd h (hdet m (by simp))
    | some r =>
      simp only [h]
      have hrest : ∀ x ∈ rest, _determine_message_role x ≠ none :=
        fun x hx => hdet x (List.mem_cons_of_mem m hx)
      split <;> simp [ih _ _ hrest]

theorem filterMap_validate_dump (msgs : List ModelMessage) :
    ((msgs.map (fun m => dump_json [m])).filterMap validate_json).flatten = msgs := by
  induction msgs with
  | nil => rfl
  | cons m rest ih =>
    have h : validate_json (dump_json [m]) = some [m] := rfl
    simp only [List.map_cons, List.filterMap_cons, h, List.flatten_cons, ih]
    rfl

/-- C6: round-trip. For every non-empty list of well-formed provider-format
messages (each of a recognised kind), encoding them to storage records,
persisting them through `save_agent_messages` into a thread with no prior
messages, and decoding that thread's history back yields exactly the original
message sequence — equal in role classification and content — provided the
drawn IDs are pairwise distinct, non-empty, and absent from the store (the
`uuid4` contract). -/
theorem encode_persist_decode_roundtrip (fresh : Nat → String) (db : DB)
    (thread_id : String) (msgs : List ModelMessage)
    (hne : msgs ≠ [])
    (hwf : ∀ m ∈ msgs, m ≠ ModelMessage.unknown)
    (htid : thread_id ≠ "")
    (hnodup : (assignIds fresh (_prepare_agent_messages fresh thread_id msgs none) 0).Nodup)
    (hids : ∀ i ∈ assignIds fresh (_prepare_agent_messages fresh thread_id msgs none) 0,
      i ≠ "" ∧ ∀ m ∈ db.messages, m.id ≠ i)
    (hclean : db.messages.filter (fun m => m.thread_id == thread_id) = []) :
    ∀ res db1,
      save_agent_messages fresh false db thread_id msgs none = (res, db1) →
      (∃ api, res = .ok api) ∧ get_model_messages_by_thread db1 thread_id = msgs := by
  have hdet : ∀ m ∈ msgs, _determine_message_role m ≠ none :=
    fun m hm => determine_role_isSome m (hwf m hm)
  have hraw : (_prepare_agent_messages fresh thread_id msgs none).map
      (fun mc => mc.raw_json) = msgs.map (fun m => dump_json [m]) :=
    prepare_go_map_raw fresh thread_id none msgs false 0 hdet
  have hblen : (_prepare_agent_messages fresh thread_id msgs none).length
      = msgs.length := by
    have h := congrArg List.length hraw
    simpa using h
  have hbne : _prepare_agent_messages fresh thread_id msgs none ≠ [] := by
    intro h0
    rw [h0] at hblen
    exact hne (List.length_eq_zero.mp hblen.symm)
  have hidlen : (assignIds fresh (_prepare_agent_messages fresh thread_id msgs none) 0).length
      = (_prepare_agent_messages fresh thread_id msgs none).length :=
    assignIds_length fresh _ 0
  have hrowsraw : (buildRows thread_id db.clock
      ((assignIds fresh (_prepare_agent_messages fresh thread_id msgs none) 0).zip
        (_prepare_agent_messages fresh thread_id msgs none))).map
      (fun m => m.raw_json_text) = msgs.map (fun m => dump_json [m]) := by
    rw [buildRows_map_raw]
    have h1 : ((assignIds fresh (_prepare_agent_messages fresh thread_id msgs none) 0).zip
        (_prepare_agent_messages fresh thread_id msgs none)).map (fun p => p.2.raw_json)
        = (((assignIds fresh (_prepare_agent_messages fresh thread_id msgs none) 0).zip
            (_prepare_agent_messages fresh thread_id msgs none)).map Prod.snd).map
          (fun mc => mc.raw_json) := by
      rw [List.map_map]
      rfl
    rw [h1, List.map_snd_zip _ _ (le_of_eq hidlen.symm), hraw]
  have hrowsid : (buildRows thread_id db.clock
      ((assignIds fresh (_prepare_agent_messages fresh thread_id msgs none) 0).zip
        (_prepare_agent_messages fresh thread_id msgs none))).map (fun m => m.id)
      = assignIds fresh (_prepare_agent_messages fresh thread_id msgs none) 0 := by
    rw [buildRows_map_id]
    exact List.map_fst_zip _ _ (le_of_eq hidlen)
  have hrowsne : buildRows thread_id db.clock
      ((assignIds fresh (_prepare_agent_messages fresh thread_id msgs none) 0).zip
        (_prepare_agent_messages fresh thread_id msgs none)) ≠ [] := by
    intro h0
    have hlen := congrArg List.length h0
    rw [buildRows_length, List.length_zip, hidlen, Nat.min_self] at hlen
    exact hbne (List.length_eq_zero.mp hlen)
  have hsortrows : sortByCreatedAt (buildRows thread_id db.clock
      ((assignIds fresh (_prepare_agent_messages fresh thread_id msgs none) 0).zip
        (_prepare_agent_messages fresh thread_id msgs none)))
      = buildRows thread_id db.clock
        ((assignIds fresh (_prepare_agent_messages fresh thread_id msgs none) 0).zip
          (_prepare_agent_messages fresh thread_id msgs none)) :=
    sortByCreatedAt_of_sorted _ (buildRows_pairwise thread_id _ db.clock)
  have holdfilter : db.messages.filter
      (fun m => (assignIds fresh (_prepare_agent_messages fresh thread_id msgs none) 0).any
        (fun i => i == m.id)) = [] := by
    apply List.filter_eq_nil_iff.mpr
    intro m hm hp
    obtain ⟨i, hi, hieq⟩ := List.any_eq_true.mp hp
    exact (hids i hi).2 m hm ((eq_of_beq hieq).symm ▸ rfl)
  have hanycol : ((assignIds fresh (_prepare_agent_messages fresh thread_id msgs none) 0).any
      (fun i => db.messages.any (fun m => m.id == i))) = false := by
    rw [List.any_eq_false]
    intro i hi hp
    obtain ⟨m, hm, hmeq⟩ := List.any_eq_true.mp hp
    exact (hids i hi).2 m hm (eq_of_beq hmeq)
  have hfiltrows : (buildRows thread_id db.clock
      ((assignIds fresh (_prepare_agent_messages fresh thread_id msgs none) 0).zip
        (_prepare_agent_messages fresh thread_id msgs none))).filter
      (fun m => (assignIds fresh (_prepare_agent_messages fresh thread_id msgs none) 0).any
        (fun i => i == m.id))
      = buildRows thread_id db.clock
        ((assignIds fresh (_prepare_agent_messages fresh thread_id msgs none) 0).zip
          (_prepare_agent_messages fresh thread_id msgs none)) :=
    List.filter_eq_self.mpr (create_batch_rows_pass_filter fresh db thread_id _)
  have hcondfalse : (false ||
      !decide (assignIds fresh (_prepare_agent_messages fresh thread_id msgs none) 0).Nodup ||
      (assignIds fresh (_prepare_agent_messages fresh thread_id msgs none) 0).any
        (fun i => db.messages.any (fun m => m.id == i))) = false := by
    simp [hnodup, hanycol]
  have hcreate : create_messages_batch fresh false db thread_id
      (_prepare_agent_messages fresh thread_id msgs none)
      = (.ok (buildRows thread_id db.clock
          ((assignIds fresh (_prepare_agent_messages fresh thread_id msgs none) 0).zip
            (_prepare_agent_messages fresh thread_id msgs none))),
        ⟨db.threads,
         db.messages ++ buildRows thread_id db.clock
          ((assignIds fresh (_prepare_agent_messages fresh thread_id msgs none) 0).zip
            (_prepare_agent_messages fresh thread_id msgs none)),
         db.clock + (buildRows thread_id db.clock
          ((assignIds fresh (_prepare_agent_messages fresh thread_id msgs none) 0).zip
            (_prepare_agent_messages fresh thread_id msgs none))).length⟩) := by
    simp only [create_messages_batch, isEmpty_false_of_ne_nil _ hbne,
      Bool.false_eq_true, if_false]
    rw [hcondfalse, if_neg Bool.false_ne_true]
    rw [List.filter_append, holdfilter, List.nil_append, hfiltrows, hsortrows]
    rw [isEmpty_false_of_ne_nil _ hrowsne, if_neg Bool.false_ne_true]
  obtain ⟨last, hlast⟩ := Option.isSome_iff_exists.mp
    (List.getLast?_isSome.mpr hrowsne)
  have hlastmem := List.mem_of_mem_getLast? hlast
  have hlid : last.id ∈ assignIds fresh (_prepare_agent_messages fresh thread_id msgs none) 0 := by
    rw [← hrowsid]
    exact List.mem_map_of_mem (fun m => m.id) hlastmem
  have hlidne : (last.id == "") = false := beq_false_of_ne (hids last.id hlid).1
  have hltid : last.thread_id = thread_id := buildRows_thread thread_id _ db.clock last hlastmem
  have hltidne : (last.thread_id == "") = false := beq_false_of_ne (by rw [hltid]; exact htid)
  obtain ⟨mm, hmm⟩ : ∃ m, last.raw_json_text = dump_json [m] := by
    have hmem : last.raw_json_text ∈ (buildRows thread_id db.clock
        ((assignIds fresh (_prepare_agent_messages fresh thread_id msgs none) 0).zip
          (_prepare_agent_messages fresh thread_id msgs none))).map
        (fun m => m.raw_json_text) := List.mem_map_of_mem (fun m => m.raw_json_text) hlastmem
    rw [hrowsraw] at hmem
    obtain ⟨m, _, hmeq⟩ := List.mem_map.mp hmem
    exact ⟨m, hmeq.symm⟩
  obtain ⟨api, hapi⟩ : ∃ api, db_to_api_message last = .ok api := by
    refine ⟨⟨last.id, last.thread_id, last.role,
      String.intercalate "\n\n" (([mm].map ModelMessage.parts).flatten.filterMap partContent),
      last.created_at⟩, ?_⟩
    simp only [db_to_api_message, hlidne, hltidne, Bool.or_self, Bool.false_eq_true,
      if_false, _raw_json_to_content, hmm, dump_json, RawPayload.isEmptyText,
      validate_json, List.isEmpty_cons]
  have hatt : save_agent_messages_attempt fresh false db thread_id msgs none
      = (.ok api,
        ⟨db.threads,
         db.messages ++ buildRows thread_id db.clock
          ((assignIds fresh (_prepare_agent_messages fresh thread_id msgs none) 0).zip
            (_prepare_agent_messages fresh thread_id msgs none)),
         db.clock + (buildRows thread_id db.clock
          ((assignIds fresh (_prepare_agent_messages fresh thread_id msgs none) 0).zip
            (_prepare_agent_messages fresh thread_id msgs none))).length⟩) := by
    simp only [save_agent_messages_attempt, isEmpty_false_of_ne_nil _ hbne,
      Bool.false_eq_true, if_false, hcreate, hlast, hapi]
  have hsave : save_agent_messages fresh false db thread_id msgs none
      = (.ok api,
        ⟨db.threads,
         db.messages ++ buildRows thread_id db.clock
          ((assignIds fresh (_prepare_agent_messages fresh thread_id msgs none) 0).zip
            (_prepare_agent_messages fresh thread_id msgs none)),
         db.clock + (buildRows thread_id db.clock
          ((assignIds fresh (_prepare_agent_messages fresh thread_id msgs none) 0).zip
            (_prepare_agent_messages fresh thread_id msgs none))).length⟩) := by
    simp only [save_agent_messages, hatt]
  intro res db1 hres
  rw [hsave, Prod.mk.injEq] at hres
  obtain ⟨hres1, hres2⟩ := hres
  refine ⟨⟨api, hres1.symm⟩, ?_⟩
  rw [← hres2]
  have hgm : get_messages_by_thread
      ⟨db.threads,
       db.messages ++ buildRows thread_id db.clock
        ((assignIds fresh (_prepare_agent_messages fresh thread_id msgs none) 0).zip
          (_prepare_agent_messages fresh thread_id msgs none)),
       db.clock + (buildRows thread_id db.clock
        ((assignIds fresh (_prepare_agent_messages fresh thread_id msgs none) 0).zip
          (_prepare_agent_messages fresh thread_id msgs none))).length⟩ thread_id
      = buildRows thread_id db.clock
        ((assignIds fresh (_prepare_agent_messages fresh thread_id msgs none) 0).zip
          (_prepare_agent_messages fresh thread_id msgs none)) := by
    simp only [get_messages_by_thread, List.filter_append, hclean, List.nil_append]
    rw [List.filter_eq_self.mpr, hsortrows]
    intro m hm
    have := buildRows_thread thread_id _ db.clock m hm
    simp [this]
  simp only [get_model_messages_by_thread, hgm]
  rw [foldl_extend_eq_filterMap_flatten, List.nil_append]
  have hfm : (buildRows thread_id db.clock
      ((assignIds fresh (_prepare_agent_messages fresh thread_id msgs none) 0).zip
        (_prepare_agent_messages fresh thread_id msgs none))).filterMap
      (fun m => validate_json m.raw_json_text)
      = (msgs.map (fun m => dump_json [m])).filterMap validate_json := by
    rw [← hrowsraw, List.filterMap_map]
    rfl
  rw [hfm, filterMap_validate_dump]

/-- A concrete well-formed history: one user request and one assistant
response. -/
def exRtMsgs : List ModelMessage :=
  [.request [⟨.userPrompt, "hi"⟩], .response [⟨.text, "yo"⟩]]

/-- C6 witness: persisting the concrete two-message history into the empty
thread and decoding it back returns it unchanged. -/
theorem encode_persist_decode_roundtrip_witness :
    (∃ api, (save_agent_messages exFresh false exDb "t1" exRtMsgs none).1
        = .ok api) ∧
    get_model_messages_by_thread
        (save_agent_messages exFresh false exDb "t1" exRtMsgs none).2 "t1"
      = exRtMsgs := by
  exact encode_persist_decode_roundtrip exFresh exDb "t1" exRtMsgs
    (by decide) (by decide) (by decide) (by decide) (by decide) (by rfl)
    (save_agent_messages exFresh false exDb "t1" exRtMsgs none).1
    (save_agent_messages exFresh false exDb "t1" exRtMsgs none).2 rfl

end PydanticAgent
